import Mathlib

/-!
Verification of the trendposter core against its specification.

Shallow embedding of:
  - src/trendposter/llm/base.py   (parse_analysis_response, parse_ranking_response)
  - src/trendposter/queue.py      (TweetQueue over SQLite, modelled as explicit state)
  - src/trendposter/scraper.py    (TrendScraper.get_trends fallback logic)
  - src/trendposter/scheduler.py  (Scheduler.run_cycle)

Python dynamic values flowing out of json.loads are modelled by the
inductive JValue; Python exceptions by PyErr, with fallible code returning
Except PyErr.  The JSON grammar fragment modelled covers null, booleans,
integer numerals, strings (with escapes), arrays and objects — the fragment
every claim exercises; floating-point numerals, NaN and Infinity (accepted
by Python's json) are treated as parse failures, and no claim depends on
non-integer numerics.
-/

set_option maxRecDepth 40000

namespace TrendPoster

/-- Python value produced by json.loads: null, bool, int, str, list, dict.
Objects are kept with distinct keys in first-insertion order, later duplicate
keys overwriting the value in place, matching Python dict construction. -/
inductive JValue where
  | null : JValue
  | bool (b : Bool) : JValue
  | num (n : Int) : JValue
  | str (s : String) : JValue
  | arr (elems : List JValue) : JValue
  | obj (fields : List (String × JValue)) : JValue
deriving Repr, Inhabited

/-- The Python exception kinds the parse functions in llm/base.py can raise. -/
inductive PyErr where
  | jsonDecodeError : PyErr
  | keyError : PyErr
  | stopIteration : PyErr
  | attributeError : PyErr
  | typeError : PyErr
  | valueError : PyErr
deriving Repr, DecidableEq

/-- Dict lookup on the field list of a JSON object (keys are distinct). -/
def objGet (fields : List (String × JValue)) (k : String) : Option JValue :=
  (fields.find? (fun kv => kv.1 == k)).map (fun kv => kv.2)

/-- Dict insertion: overwrite in place if the key exists, else append
(Python dict semantics, used while parsing JSON objects). -/
def objInsert (fields : List (String × JValue)) (k : String) (v : JValue) :
    List (String × JValue) :=
  if fields.any (fun kv => kv.1 == k) then
    fields.map (fun kv => if kv.1 == k then (kv.1, v) else kv)
  else fields ++ [(k, v)]

/-- Python truthiness of a json.loads value. -/
def pyTruthy : JValue → Bool
  | .null => false
  | .bool b => b
  | .num n => n != 0
  | .str s => s != ""
  | .arr l => !l.isEmpty
  | .obj f => !f.isEmpty

/-- `data.get(k, default)`: AttributeError when the receiver is not a dict. -/
def pyGet (v : JValue) (k : String) (default : JValue) : Except PyErr JValue :=
  match v with
  | .obj fields => .ok ((objGet fields k).getD default)
  | _ => .error .attributeError

/-- `r[k]` subscription with a string key: KeyError when the dict lacks the
key, TypeError when the receiver is not a dict. -/
def pySubscr (v : JValue) (k : String) : Except PyErr JValue :=
  match v with
  | .obj fields =>
    match objGet fields k with
    | some x => .ok x
    | none => .error .keyError
  | _ => .error .typeError

/-- Whether the value is JSON null (Python `is None`). -/
def JValue.isNull : JValue → Bool
  | .null => true
  | _ => false

/-- Python `==` between a json.loads value and an int (`True == 1` holds). -/
def jvEqInt (v : JValue) (n : Int) : Bool :=
  match v with
  | .num m => m == n
  | .bool b => (if b then (1 : Int) else 0) == n
  | _ => false

/-- The integer identity of a value when compared against int ids: `none`
encodes a value (str, null, list, dict) unequal to every int. -/
def jvToIntId : JValue → Option Int
  | .num n => some n
  | .bool b => some (if b then 1 else 0)
  | _ => none

/-- The string content of a value stored into a str field of TweetAnalysis
(`data.get(k, "")` / `r.get(k) or ""`).  Non-string values other than the
falsy defaults are collapsed to "": no claim observes those fields' values
for non-string model output. -/
def jvToStrD : JValue → String
  | .str s => s
  | _ => ""

/-- Python whitespace stripped by str.strip (ASCII fragment). -/
def isPySpace (c : Char) : Bool :=
  c == ' ' || c == '\t' || c == '\n' || c == '\r' || c == '\x0b' || c == '\x0c'

/-- str.strip(): drop leading and trailing whitespace. -/
def pyStrip (l : List Char) : List Char :=
  ((l.dropWhile isPySpace).reverse.dropWhile isPySpace).reverse

/-- Fold a digit run into a Nat. -/
def digitsToNat (l : List Char) : Nat :=
  l.foldl (fun acc c => acc * 10 + (c.toNat - 48)) 0

/-- Python `int(x)` applied to a json.loads value: ints pass through, bools
become 0/1, strings are parsed as optionally signed decimal numerals
(ValueError otherwise), everything else raises TypeError. -/
def pyToInt : JValue → Except PyErr Int
  | .num n => .ok n
  | .bool b => .ok (if b then 1 else 0)
  | .str s =>
    let t := pyStrip s.data
    let (neg, rest) :=
      match t with
      | '-' :: r => (true, r)
      | '+' :: r => (false, r)
      | r => (false, r)
    if rest.isEmpty then .error .valueError
    else if rest.all Char.isDigit then
      .ok (if neg then -(digitsToNat rest : Int) else (digitsToNat rest : Int))
    else .error .valueError
  | .null => .error .typeError
  | .arr _ => .error .typeError
  | .obj _ => .error .typeError

/-- Python iteration over a json.loads value (`for r in rankings`): lists
yield elements, strings yield 1-char strings, dicts yield their keys,
everything else raises TypeError. -/
def jvIter : JValue → Except PyErr (List JValue)
  | .arr l => .ok l
  | .str s => .ok (s.data.map (fun c => JValue.str (String.mk [c])))
  | .obj fields => .ok (fields.map (fun kv => JValue.str kv.1))
  | _ => .error .typeError

/-- JSON whitespace. -/
def isJsonWs (c : Char) : Bool :=
  c == ' ' || c == '\t' || c == '\n' || c == '\r'

/-- Skip JSON whitespace. -/
def skipWs (l : List Char) : List Char :=
  l.dropWhile isJsonWs

/-- Hex digit value. -/
def hexVal (c : Char) : Option Nat :=
  if c.isDigit then some (c.toNat - 48)
  else if 'a' ≤ c && c ≤ 'f' then some (c.toNat - 87)
  else if 'A' ≤ c && c ≤ 'F' then some (c.toNat - 55)
  else none

/-- JSON single-character escapes (the \u form is handled separately). -/
def parseEsc : Char → Option Char
  | 'n' => some '\n'
  | 't' => some '\t'
  | 'r' => some '\r'
  | 'b' => some '\x08'
  | 'f' => some '\x0c'
  | '"' => some '"'
  | '\\' => some '\\'
  | '/' => some '/'
  | _ => none

/-- Parse the body of a JSON string after the opening quote, returning the
decoded characters and the remainder after the closing quote.  Raw control
characters are rejected, as in Python's json. -/
def parseStringBody : List Char → Option (List Char × List Char)
  | [] => none
  | '"' :: rest => some ([], rest)
  | '\\' :: 'u' :: h1 :: h2 :: h3 :: h4 :: rest => do
    let a ← hexVal h1
    let b ← hexVal h2
    let c ← hexVal h3
    let d ← hexVal h4
    let (s, r) ← parseStringBody rest
    some (Char.ofNat (((a * 16 + b) * 16 + c) * 16 + d) :: s, r)
  | '\\' :: c :: rest => do
    let e ← parseEsc c
    let (s, r) ← parseStringBody rest
    some (e :: s, r)
  | c :: rest =>
    if c.toNat < 32 then none
    else do
      let (s, r) ← parseStringBody rest
      some (c :: s, r)

/-- Parse a JSON unsigned integer numeral (no leading zeros); reject a
following '.', 'e' or 'E' (floating-point numerals are outside the modelled
fragment). -/
def parseNatNum (l : List Char) : Option (Nat × List Char) :=
  let digits := l.takeWhile Char.isDigit
  let rest := l.dropWhile Char.isDigit
  if digits.isEmpty then none
  else if digits.length > 1 && digits.head? == some '0' then none
  else
    match rest with
    | c :: _ => if c == '.' || c == 'e' || c == 'E' then none else some (digitsToNat digits, rest)
    | [] => some (digitsToNat digits, rest)

mutual

/-- Recursive-descent JSON value parser (fuel-indexed). -/
def parseValue : Nat → List Char → Option (JValue × List Char)
  | 0, _ => none
  | fuel + 1, l =>
    match l with
    | 'n' :: 'u' :: 'l' :: 'l' :: r => some (.null, r)
    | 't' :: 'r' :: 'u' :: 'e' :: r => some (.bool true, r)
    | 'f' :: 'a' :: 'l' :: 's' :: 'e' :: r => some (.bool false, r)
    | '"' :: r => (parseStringBody r).map (fun p => (.str (String.mk p.1), p.2))
    | '[' :: r => parseArrItems fuel (skipWs r)
    | '{' :: r => parseObjItems fuel (skipWs r)
    | '-' :: r => (parseNatNum r).map (fun p => (.num (-(p.1 : Int)), p.2))
    | _ => (parseNatNum l).map (fun p => (.num (p.1 : Int), p.2))

/-- Parse array items after the opening bracket (whitespace skipped). -/
def parseArrItems : Nat → List Char → Option (JValue × List Char)
  | 0, _ => none
  | fuel + 1, l =>
    match l with
    | ']' :: r => some (.arr [], r)
    | _ => do
      let (v, r) ← parseValue fuel l
      parseArrTail fuel (skipWs r) [v]

/-- Parse the rest of an array after at least one item (accumulator reversed). -/
def parseArrTail : Nat → List Char → List JValue → Option (JValue × List Char)
  | 0, _, _ => none
  | fuel + 1, l, acc =>
    match l with
    | ']' :: r => some (.arr acc.reverse, r)
    | ',' :: r => do
      let (v, r2) ← parseValue fuel (skipWs r)
      parseArrTail fuel (skipWs r2) (v :: acc)
    | _ => none

/-- Parse object members after the opening brace (whitespace skipped). -/
def parseObjItems : Nat → List Char → Option (JValue × List Char)
  | 0, _ => none
  | fuel + 1, l =>
    match l with
    | '}' :: r => some (.obj [], r)
    | '"' :: r => do
      let (k, r2) ← parseStringBody r
      match skipWs r2 with
      | ':' :: r3 => do
        let (v, r4) ← parseValue fuel (skipWs r3)
        parseObjTail fuel (skipWs r4) (objInsert [] (String.mk k) v)
      | _ => none
    | _ => none

/-- Parse the rest of an object after at least one member. -/
def parseObjTail : Nat → List Char → List (String × JValue) → Option (JValue × List Char)
  | 0, _, _ => none
  | fuel + 1, l, fields =>
    match l with
    | '}' :: r => some (.obj fields, r)
    | ',' :: r =>
      match skipWs r with
      | '"' :: r2 => do
        let (k, r3) ← parseStringBody r2
        match skipWs r3 with
        | ':' :: r4 => do
          let (v, r5) ← parseValue fuel (skipWs r4)
          parseObjTail fuel (skipWs r5) (objInsert fields (String.mk k) v)
        | _ => none
      | _ => none
    | _ => none

end

/-- Python json.loads on the modelled fragment: parse one value surrounded
by optional whitespace; anything else (including trailing garbage) is a
json.JSONDecodeError. -/
def jsonLoads (s : String) : Except Unit JValue :=
  match parseValue (s.data.length + 2) (skipWs s.data) with
  | some (v, rest) => if (skipWs rest).isEmpty then .ok v else .error ()
  | none => .error ()

/-- The markdown-fence stripping of llm/base.py lines 133-138 / 87-92:
strip the text; if it starts with three backquotes, drop through the first
newline (or drop 3 chars when there is none), drop a trailing three
backquotes if present, and strip again. -/
def stripFences (raw : String) : String :=
  let t := pyStrip raw.data
  if t.take 3 = ['`', '`', '`'] then
    let t1 := if t.contains '\n' then (t.dropWhile (fun c => c != '\n')).drop 1 else t.drop 3
    let t2 :=
      if t1.length ≥ 3 && t1.drop (t1.length - 3) = ['`', '`', '`'] then
        t1.take (t1.length - 3)
      else t1
    String.mk (pyStrip t2)
  else String.mk t

/-- An entry of the `tweets` list handed to the parse functions by the
Scheduler: a dict with int "id" and str "text". -/
structure TweetRef where
  id : Int
  text : String
deriving Repr, DecidableEq

/-- The TweetAnalysis dataclass of llm/base.py.  `tweet_id` is `none` when
the model supplied a non-integer id value — such a value compares unequal
to every integer draft id downstream, as in Python. -/
structure TweetAnalysis where
  tweet_id : Option Int
  tweet_text : String
  relevance_score : Int
  matched_trend : String
  reasoning : String
  should_post : Bool
deriving Repr, DecidableEq

/-- The body of parse_analysis_response before its try/except: each Python
statement in order, propagating the exception it can raise. -/
def parse_analysis_body (response_text : String) (tweets : List TweetRef) :
    Except PyErr (Option TweetAnalysis) :=
  match jsonLoads (stripFences response_text) with
  | .error _ => .error .jsonDecodeError
  | .ok data => do
    let sp ← pyGet data "should_post" .null
    let bid ← pyGet data "best_tweet_id" .null
    if !pyTruthy sp || bid.isNull then
      return none
    else
      let tweet_text := ((tweets.find? (fun t => jvEqInt bid t.id)).map (fun t => t.text)).getD ""
      let scoreV ← pyGet data "relevance_score" (.num 0)
      let score ← pyToInt scoreV
      let mtV ← pyGet data "matched_trend" (.str "")
      let rV ← pyGet data "reasoning" (.str "")
      return some {
        tweet_id := jvToIntId bid
        tweet_text := tweet_text
        relevance_score := score
        matched_trend := jvToStrD mtV
        reasoning := jvToStrD rV
        should_post := pyTruthy sp
      }

/-- Whether the exception is in parse_analysis_response's except clause
(json.JSONDecodeError, KeyError, StopIteration). -/
def analysisCaught (e : PyErr) : Bool :=
  e == .jsonDecodeError || e == .keyError || e == .stopIteration

/-- parse_analysis_response of llm/base.py: the body wrapped in
try/except (json.JSONDecodeError, KeyError, StopIteration) returning None.
An `.error` result is an exception escaping the function. -/
def parse_analysis_response (response_text : String) (tweets : List TweetRef) :
    Except PyErr (Option TweetAnalysis) :=
  match parse_analysis_body response_text tweets with
  | .error e => if analysisCaught e then .ok none else .error e
  | .ok r => .ok r

/-- `tid in tweet_map` where the map keys are the int tweet ids: lists and
dicts are unhashable (TypeError), other values hash-compare against the
int keys (True matches 1). -/
def pyContains (v : JValue) (tweets : List TweetRef) : Except PyErr Bool :=
  match v with
  | .arr _ => .error .typeError
  | .obj _ => .error .typeError
  | _ => .ok (tweets.any (fun t => jvEqInt v t.id))

/-- `tweet_map[tid]` where tweet_map is built by dict comprehension over
tweets (a later duplicate id overwrites an earlier one). -/
def tweetMapLookup (tweets : List TweetRef) (v : JValue) : Option String :=
  (tweets.reverse.find? (fun t => jvEqInt v t.id)).map (fun t => t.text)

/-- Stable insertion maintaining ascending key order: the new element is
placed after every element whose key is ≤ its own. -/
def insertLe (key : α → Int) (x : α) : List α → List α
  | [] => [x]
  | y :: ys => if key x < key y then x :: y :: ys else y :: insertLe key x ys

/-- Stable ascending sort by an integer key.  Python's list.sort is stable;
sorting with reverse=True equals this sort with the negated key. -/
def stableSortBy (key : α → Int) (l : List α) : List α :=
  l.foldl (fun acc x => insertLe key x acc) []

/-- The for-loop of parse_ranking_response: keep entries whose id is a key
of tweet_map, building a TweetAnalysis per kept entry, propagating the
exceptions each statement can raise. -/
def rankingKeep (rs : List JValue) (tweets : List TweetRef) :
    Except PyErr (List TweetAnalysis) :=
  match rs with
  | [] => .ok []
  | r :: rest => do
    let tid ← pySubscr r "id"
    let isIn ← pyContains tid tweets
    if !isIn then
      rankingKeep rest tweets
    else
      let scoreV ← pyGet r "relevance_score" (.num 0)
      let score ← pyToInt scoreV
      let mtV ← pyGet r "matched_trend" .null
      let rV ← pyGet r "reasoning" (.str "")
      let entry : TweetAnalysis := {
        tweet_id := jvToIntId tid
        tweet_text := (tweetMapLookup tweets tid).getD ""
        relevance_score := score
        matched_trend := jvToStrD mtV
        reasoning := jvToStrD rV
        should_post := decide (0 < score)
      }
      let tail ← rankingKeep rest tweets
      return entry :: tail

/-- The body of parse_ranking_response before its try/except. -/
def parse_ranking_body (response_text : String) (tweets : List TweetRef) :
    Except PyErr (List TweetAnalysis) :=
  match jsonLoads (stripFences response_text) with
  | .error _ => .error .jsonDecodeError
  | .ok data => do
    let rankingsV ← pyGet data "rankings" (.arr [])
    let rs ← jvIter rankingsV
    let results ← rankingKeep rs tweets
    return stableSortBy (fun a => -a.relevance_score) results

/-- Whether the exception is in parse_ranking_response's except clause
(json.JSONDecodeError, KeyError). -/
def rankingCaught (e : PyErr) : Bool :=
  e == .jsonDecodeError || e == .keyError

/-- parse_ranking_response of llm/base.py: the body wrapped in
try/except (json.JSONDecodeError, KeyError) returning the empty list. -/
def parse_ranking_response (response_text : String) (tweets : List TweetRef) :
    Except PyErr (List TweetAnalysis) :=
  match parse_ranking_body response_text tweets with
  | .error e => if rankingCaught e then .ok [] else .error e
  | .ok r => .ok r

/-! ### Trend scraper (src/trendposter/scraper.py) -/

/-- The Trend dataclass of scraper.py. -/
structure Trend where
  name : String
  category : Option String := none
  tweet_count : Option String := none
deriving Repr, DecidableEq

/-- The outcome of `_fetch_source` for one configured source: `.error` is a
raised exception (network error, non-2xx, parse error), `.ok` the parsed
trend list. -/
abbrev SourceOutcome := Except Unit (List Trend)

/-- TrendScraper.get_trends: try the sources in order; on an exception log
and continue; on a non-empty result return its first 30 entries; if every
source raises or yields nothing, return the empty list. -/
def get_trends : List SourceOutcome → List Trend
  | [] => []
  | .error _ :: rest => get_trends rest
  | .ok ts :: rest => if ts.isEmpty then get_trends rest else ts.take 30

/-! ### Tweet queue (src/trendposter/queue.py)

The two SQLite tables are modelled as explicit lists; timestamps are
abstract clock ticks (`Nat`), strictly increasing across operations, so
`ORDER BY added_at ASC` / row order agree the way they do at runtime.
`relevance_score` is a REAL column, but every value the program writes is
an integer score, modelled as `Int`. -/

/-- A row of the `tweets` table (the QueuedTweet dataclass). -/
structure Draft where
  id : Int
  text : String
  added_at : Nat
  posted_at : Option Nat := none
  relevance_score : Option Int := none
  matched_trend : Option String := none
  status : String := "queued"
  media_path : Option String := none
  media_type : Option String := none
deriving Repr, DecidableEq

/-- A row of the `post_log` table.  `tweet_id` is `none` when the value
written is not an integer (a non-integer model-provided id reaching
mark_posted); it then references no draft. -/
structure PostLogEntry where
  tweet_id : Option Int
  tweet_text : String
  trends : String
  reasoning : String
  relevance_score : Int
  posted_at : Nat
deriving Repr, DecidableEq

/-- The durable state owned by TweetQueue: the `tweets` rows, the next
AUTOINCREMENT id, and the `post_log` rows. -/
structure QueueState where
  drafts : List Draft
  nextId : Int
  postLog : List PostLogEntry
deriving Repr, DecidableEq

/-- A fresh database. -/
def emptyQueue : QueueState := { drafts := [], nextId := 1, postLog := [] }

namespace TweetQueue

/-- TweetQueue.add: INSERT a new row with status 'queued' and the next
AUTOINCREMENT id (monotonic, never reused); returns the new state and the
QueuedTweet handed back to the caller. -/
def add (qs : QueueState) (text : String) (now : Nat)
    (media_path media_type : Option String) : QueueState × Draft :=
  let d : Draft := {
    id := qs.nextId
    text := text
    added_at := now
    media_path := media_path
    media_type := media_type
  }
  ({ qs with drafts := qs.drafts ++ [d], nextId := qs.nextId + 1 }, d)

/-- TweetQueue.list_queued: SELECT * WHERE status = 'queued' ORDER BY
added_at ASC (a stable ascending sort over the stored rows). -/
def list_queued (qs : QueueState) : List Draft :=
  stableSortBy (fun d => (d.added_at : Int))
    (qs.drafts.filter (fun d => d.status == "queued"))

/-- TweetQueue.remove: UPDATE status to 'removed' WHERE id matches AND
status = 'queued'; returns whether a row changed. -/
def remove (qs : QueueState) (tweet_id : Int) : QueueState × Bool :=
  let hit := qs.drafts.any (fun d => d.id == tweet_id && d.status == "queued")
  let drafts := qs.drafts.map (fun d =>
    if d.id == tweet_id && d.status == "queued" then { d with status := "removed" } else d)
  ({ qs with drafts := drafts }, hit)

/-- The _get_text helper: the text of the row with the given id, or the
empty string when no row matches. -/
def getText (drafts : List Draft) (tweet_id : Option Int) : String :=
  ((drafts.find? (fun d => some d.id == tweet_id)).map (fun d => d.text)).getD ""

/-- The SET clause of mark_posted's UPDATE: status 'posted', posted_at,
matched_trend and relevance_score. -/
def postedUpdate (trend : String) (score : Int) (now : Nat) (d : Draft) : Draft :=
  { d with
    status := "posted"
    posted_at := some now
    matched_trend := some trend
    relevance_score := some score }

/-- TweetQueue.mark_posted: UPDATE the matching row (whatever its current
status) to 'posted' with posted_at, matched_trend and relevance_score set,
then unconditionally INSERT a post_log row whose tweet_text comes from
_get_text.  No existence check is performed. -/
def mark_posted (qs : QueueState) (tweet_id : Option Int) (trend : String)
    (score : Int) (reasoning : String) (trends_json : String) (now : Nat) :
    QueueState :=
  let drafts := qs.drafts.map (fun d =>
    if some d.id == tweet_id then postedUpdate trend score now d else d)
  { qs with
    drafts := drafts
    postLog := qs.postLog ++ [{
      tweet_id := tweet_id
      tweet_text := getText drafts tweet_id
      trends := trends_json
      reasoning := reasoning
      relevance_score := score
      posted_at := now
    }] }

/-- TweetQueue.queue_size: COUNT of rows with status 'queued'. -/
def queue_size (qs : QueueState) : Nat :=
  (qs.drafts.filter (fun d => d.status == "queued")).length

end TweetQueue

/-- One call of the public TweetQueue API (the operations that mutate the
store). -/
inductive QOp where
  | add (text : String) (media_path media_type : Option String) : QOp
  | remove (id : Int) : QOp
  | markPosted (id : Int) (trend : String) (score : Int)
      (reasoning trends_json : String) : QOp
deriving Repr, DecidableEq

/-- Execute one queue operation at a given clock tick. -/
def execOp (qs : QueueState) (now : Nat) : QOp → QueueState
  | .add text mp mt => (TweetQueue.add qs text now mp mt).1
  | .remove id => (TweetQueue.remove qs id).1
  | .markPosted id trend score reasoning tj =>
    TweetQueue.mark_posted qs (some id) trend score reasoning tj now

/-- Execute a sequence of queue operations, the clock advancing each step. -/
def execOps (qs : QueueState) (now : Nat) : List QOp → QueueState
  | [] => qs
  | op :: rest => execOps (execOp qs now op) (now + 1) rest

/-- Whether a draft with this id is currently queued. -/
def isQueued (qs : QueueState) (id : Int) : Bool :=
  qs.drafts.any (fun d => d.id == id && d.status == "queued")

/-- Caller discipline over a sequence of operations: mark_posted is only
invoked on an id that is queued at that moment (the discipline the spec
requires of Scheduler, which re-fetches the queued list before acting). -/
def disciplined (qs : QueueState) (now : Nat) : List QOp → Bool
  | [] => true
  | op :: rest =>
    (match op with
     | .markPosted id _ _ _ _ => isQueued qs id
     | _ => true)
    && disciplined (execOp qs now op) (now + 1) rest

/-- How many post_log rows reference the draft with this id. -/
def logCount (qs : QueueState) (id : Int) : Nat :=
  (qs.postLog.filter (fun e => e.tweet_id == some id)).length

/-! ### Scheduler (src/trendposter/scheduler.py) -/

/-- The dict returned by XPoster.post on success. -/
structure PostResult where
  id : String
  text : String
  url : String
deriving Repr, DecidableEq

/-- The per-cycle environment: everything run_cycle observes from outside
the queue.  `llmResponse` is the outcome of `self.complete(prompt)`
(`.error` = transport failure raised there); `postResult` the outcome of
`self.poster.post(text, media_path)` (`.error` = exception raised);
`trends` the list `self.scraper.get_trends()` returned;
`minRelevanceScore` the configured threshold. -/
structure CycleEnv where
  isPostingHour : Bool
  trends : List Trend
  llmResponse : Except Unit String
  postResult : String → Option String → Except Unit PostResult
  minRelevanceScore : Int

/-- BaseLLMProvider.analyze_tweets: empty tweet list short-circuits to
None; the completion call and the parse are wrapped in
`except Exception: return None`, so any raised exception becomes None.
The prompt built from trends_text and tweets only feeds the external
completion call, whose outcome is `llmResponse`. -/
def analyze_tweets (llmResponse : Except Unit String) (tweets : List TweetRef) :
    Option TweetAnalysis :=
  if tweets.isEmpty then none
  else
    match llmResponse with
    | .error _ => none
    | .ok resp =>
      match parse_analysis_response resp tweets with
      | .error _ => none
      | .ok r => r

/-- json.dumps escaping for the strings embedded in the trends snapshot. -/
def jsonDumpsStr (s : String) : String :=
  "\"" ++ String.mk (s.data.flatMap (fun c =>
    if c == '"' then ['\\', '"'] else if c == '\\' then ['\\', '\\'] else [c])) ++ "\""

/-- `json.dumps([\x7b"name": t.name\x7d for t in trends])` as built in
run_cycle step 6. -/
def trendsSnapshotJson (trends : List Trend) : String :=
  "[" ++ String.intercalate ", "
    (trends.map (fun t => "\x7b\"name\": " ++ jsonDumpsStr t.name ++ "\x7d")) ++ "]"

/-- What one run_cycle call produced: its return value, the queue state it
left behind, and whether Poster.post was invoked. -/
structure CycleResult where
  analysis : Option TweetAnalysis
  queue : QueueState
  posterCalled : Bool
deriving Repr

/-- Scheduler.run_cycle, statement by statement: posting-hours gate (skipped
when dry_run), queued fetch, trend fetch, LLM analysis, should_post check,
score gate, dry-run report, and finally the post attempt whose failure is
caught (notify + return None) and whose success is followed by
Queue.mark_posted. -/
def run_cycle (env : CycleEnv) (qs : QueueState) (dry_run : Bool) (now : Nat) :
    CycleResult :=
  if !dry_run && !env.isPostingHour then ⟨none, qs, false⟩
  else
    let queued := TweetQueue.list_queued qs
    if queued.isEmpty then ⟨none, qs, false⟩
    else if env.trends.isEmpty then ⟨none, qs, false⟩
    else
      let tweets_for_llm := queued.map (fun t => TweetRef.mk t.id t.text)
      match analyze_tweets env.llmResponse tweets_for_llm with
      | none => ⟨none, qs, false⟩
      | some analysis =>
        if !analysis.should_post then ⟨none, qs, false⟩
        else if analysis.relevance_score < env.minRelevanceScore then
          ⟨some analysis, qs, false⟩
        else if dry_run then ⟨some analysis, qs, false⟩
        else
          let tweet_obj := queued.find? (fun t => some t.id == analysis.tweet_id)
          let media_path := tweet_obj.bind (fun t => t.media_path)
          match env.postResult analysis.tweet_text media_path with
          | .error _ => ⟨none, qs, true⟩
          | .ok _ =>
            ⟨some analysis,
             TweetQueue.mark_posted qs analysis.tweet_id analysis.matched_trend
               analysis.relevance_score analysis.reasoning
               (trendsSnapshotJson env.trends) now,
             true⟩

/-! ### Lemmas about the stable sort -/

theorem mem_insertLe {α} (key : α → Int) (x : α) (l : List α) (a : α) :
    a ∈ insertLe key x l ↔ a = x ∨ a ∈ l := by
  induction l with
  | nil => simp [insertLe]
  | cons y ys ih =>
    simp only [insertLe]
    split
    · simp [List.mem_cons]
    · simp only [List.mem_cons, ih]
      tauto

theorem pairwise_insertLe {α} (key : α → Int) (x : α) (l : List α)
    (h : l.Pairwise (fun a b => key a ≤ key b)) :
    (insertLe key x l).Pairwise (fun a b => key a ≤ key b) := by
  induction l with
  | nil => simp [insertLe]
  | cons y ys ih =>
    rcases List.pairwise_cons.mp h with ⟨hy, hys⟩
    simp only [insertLe]
    split
    · rename_i hlt
      refine List.pairwise_cons.mpr ⟨?_, h⟩
      intro b hb
      rcases List.mem_cons.mp hb with hb | hb
      · exact hb ▸ le_of_lt hlt
      · exact le_trans (le_of_lt hlt) (hy b hb)
    · rename_i hnlt
      refine List.pairwise_cons.mpr ⟨?_, ih hys⟩
      intro b hb
      rcases (mem_insertLe key x ys b).mp hb with hb | hb
      · exact hb ▸ le_of_not_lt hnlt
      · exact hy b hb

theorem filter_insertLe_ne {α} (key : α → Int) (x : α) (l : List α) (k : Int)
    (hx : key x ≠ k) :
    (insertLe key x l).filter (fun a => key a == k) =
      l.filter (fun a => key a == k) := by
  induction l with
  | nil => simp [insertLe, hx]
  | cons y ys ih =>
    simp only [insertLe]
    split
    · simp [List.filter_cons, hx]
    · simp [List.filter_cons, ih]

theorem filter_insertLe_eq {α} (key : α → Int) (x : α) (l : List α) (k : Int)
    (hx : key x = k) (hl : l.Pairwise (fun a b => key a ≤ key b)) :
    (insertLe key x l).filter (fun a => key a == k) =
      l.filter (fun a => key a == k) ++ [x] := by
  induction l with
  | nil => simp [insertLe, hx]
  | cons y ys ih =>
    rcases List.pairwise_cons.mp hl with ⟨hy, hys⟩
    simp only [insertLe]
    split
    · rename_i hlt
      have hnil : (y :: ys).filter (fun a => key a == k) = [] := by
        rw [List.filter_eq_nil_iff]
        intro b hb
        have hkb : key y ≤ key b := by
          rcases List.mem_cons.mp hb with hb | hb
          · exact hb ▸ le_refl _
          · exact hy b hb
        have : k < key b := lt_of_lt_of_le (hx ▸ hlt) hkb
        simp [ne_of_gt this]
      simp [List.filter_cons, hx, hnil]
    · simp only [List.filter_cons, ih hys]
      split <;> simp

theorem foldl_insertLe_pairwise {α} (key : α → Int) :
    ∀ (l acc : List α), acc.Pairwise (fun a b => key a ≤ key b) →
      (l.foldl (fun acc x => insertLe key x acc) acc).Pairwise
        (fun a b => key a ≤ key b) := by
  intro l
  induction l with
  | nil => intro acc h; simpa using h
  | cons x xs ih =>
    intro acc h
    exact ih (insertLe key x acc) (pairwise_insertLe key x acc h)

theorem foldl_insertLe_filter {α} (key : α → Int) (k : Int) :
    ∀ (l acc : List α), acc.Pairwise (fun a b => key a ≤ key b) →
      (l.foldl (fun acc x => insertLe key x acc) acc).filter (fun a => key a == k) =
        acc.filter (fun a => key a == k) ++ l.filter (fun a => key a == k) := by
  intro l
  induction l with
  | nil => intro acc _; simp
  | cons x xs ih =>
    intro acc h
    have hstep := ih (insertLe key x acc) (pairwise_insertLe key x acc h)
    by_cases hx : key x = k
    · rw [List.foldl_cons, hstep, filter_insertLe_eq key x acc k hx h]
      simp [List.filter_cons, hx]
    · rw [List.foldl_cons, hstep, filter_insertLe_ne key x acc k hx]
      simp [List.filter_cons, hx]

theorem foldl_insertLe_mem {α} (key : α → Int) (a : α) :
    ∀ (l acc : List α),
      a ∈ l.foldl (fun acc x => insertLe key x acc) acc ↔ a ∈ acc ∨ a ∈ l := by
  intro l
  induction l with
  | nil => intro acc; simp
  | cons x xs ih =>
    intro acc
    rw [List.foldl_cons, ih (insertLe key x acc)]
    rw [mem_insertLe]
    simp [List.mem_cons]
    tauto

theorem pairwise_stableSortBy {α} (key : α → Int) (l : List α) :
    (stableSortBy key l).Pairwise (fun a b => key a ≤ key b) :=
  foldl_insertLe_pairwise key l [] (by simp)

theorem filter_stableSortBy {α} (key : α → Int) (k : Int) (l : List α) :
    (stableSortBy key l).filter (fun a => key a == k) =
      l.filter (fun a => key a == k) := by
  have := foldl_insertLe_filter key k l [] (by simp)
  simpa [stableSortBy] using this

theorem mem_stableSortBy {α} (key : α → Int) (l : List α) (a : α) :
    a ∈ stableSortBy key l ↔ a ∈ l := by
  have := foldl_insertLe_mem key a l []
  simpa [stableSortBy] using this

/-! ### C1 — mark_posted on an id identifying no stored draft -/

/-- C1 counterexample.  The claim states that mark_posted on an id that
identifies no stored draft fails with NotFoundError and leaves the post_log
unchanged.  On the empty store, mark_posted with id 5 returns normally and
appends a post_log row (with empty tweet_text), so the claim is false. -/
theorem mark_posted_unknown_id_counterexample :
    (TweetQueue.mark_posted emptyQueue (some 5) "t" 50 "r" "[]" 0).postLog =
      [{ tweet_id := some 5, tweet_text := "", trends := "[]", reasoning := "r",
         relevance_score := 50, posted_at := 0 }] ∧
    (TweetQueue.mark_posted emptyQueue (some 5) "t" 50 "r" "[]" 0).drafts = [] :=
  ⟨rfl, rfl⟩

/-- C1 (amended): for every id that identifies no stored draft, mark_posted
does not fail — it leaves the drafts table unchanged and appends one
PostLogEntry carrying that id, an empty tweet_text snapshot, and the given
trend snapshot, reasoning and score. -/
theorem mark_posted_unknown_id_behavior (qs : QueueState) (tid : Option Int)
    (trend : String) (score : Int) (reasoning tj : String) (now : Nat)
    (h : ∀ d ∈ qs.drafts, some d.id ≠ tid) :
    (TweetQueue.mark_posted qs tid trend score reasoning tj now).drafts = qs.drafts ∧
    (TweetQueue.mark_posted qs tid trend score reasoning tj now).postLog =
      qs.postLog ++ [{ tweet_id := tid, tweet_text := "", trends := tj,
                       reasoning := reasoning, relevance_score := score,
                       posted_at := now }] := by
  have hbeq : ∀ d ∈ qs.drafts, (some d.id == tid) = false := fun d hd =>
    beq_eq_false_iff_ne.mpr (h d hd)
  have hmap : (TweetQueue.mark_posted qs tid trend score reasoning tj now).drafts
      = qs.drafts := by
    simp only [TweetQueue.mark_posted]
    refine Eq.trans (List.map_congr_left ?_) (List.map_id _)
    intro d hd
    simp [hbeq d hd]
  refine ⟨hmap, ?_⟩
  have hfind : (TweetQueue.mark_posted qs tid trend score reasoning tj now).drafts.find?
      (fun d => some d.id == tid) = none := by
    rw [hmap]
    exact List.find?_eq_none.mpr (fun d hd => by simp [hbeq d hd])
  simp only [TweetQueue.mark_posted] at hmap hfind ⊢
  rw [TweetQueue.getText, hfind]
  simp

/-- C1 witness: applying the amended theorem on the empty store. -/
theorem mark_posted_unknown_id_behavior_witness :
    (TweetQueue.mark_posted emptyQueue (some 7) "tr" 9 "why" "[]" 3).drafts =
      emptyQueue.drafts ∧
    (TweetQueue.mark_posted emptyQueue (some 7) "tr" 9 "why" "[]" 3).postLog =
      emptyQueue.postLog ++ [{ tweet_id := some 7, tweet_text := "", trends := "[]",
                               reasoning := "why", relevance_score := 9,
                               posted_at := 3 }] :=
  mark_posted_unknown_id_behavior emptyQueue (some 7) "tr" 9 "why" "[]" 3
    (fun d hd => absurd hd (List.not_mem_nil d))

/-! ### C3 — Queue.add performs no length validation -/

/-- C3 counterexample.  The claim states that a text longer than 280
characters fails with ValidationError and is never queued.  Adding a
281-character text succeeds and a draft with that text is stored with
status queued. -/
theorem add_oversize_text_counterexample :
    280 < (String.mk (List.replicate 281 'a')).length ∧
    (TweetQueue.add emptyQueue (String.mk (List.replicate 281 'a')) 0 none none).1.drafts =
      [{ id := 1, text := String.mk (List.replicate 281 'a'), added_at := 0,
         posted_at := none, relevance_score := none, matched_trend := none,
         status := "queued", media_path := none, media_type := none }] := by
  constructor
  · show 280 < (List.replicate 281 'a').length
    rw [List.length_replicate]
    omega
  · rfl

/-- C3 (amended): Queue.add performs no length validation.  For every text,
including any text longer than 280 characters, add succeeds: the returned
draft carries the exact text, status queued and the next monotonic id, the
queued count grows by one, and the draft appears in list_queued. -/
theorem add_no_length_validation (qs : QueueState) (text : String) (now : Nat)
    (mp mt : Option String) (h : 280 < text.length) :
    (TweetQueue.add qs text now mp mt).2.text = text ∧
    (TweetQueue.add qs text now mp mt).2.status = "queued" ∧
    (TweetQueue.add qs text now mp mt).2.id = qs.nextId ∧
    TweetQueue.queue_size (TweetQueue.add qs text now mp mt).1 =
      TweetQueue.queue_size qs + 1 ∧
    (TweetQueue.add qs text now mp mt).2 ∈
      TweetQueue.list_queued (TweetQueue.add qs text now mp mt).1 := by
  refine ⟨rfl, rfl, rfl, ?_, ?_⟩
  · simp [TweetQueue.add, TweetQueue.queue_size, List.filter_append]
  · simp only [TweetQueue.add, TweetQueue.list_queued]
    rw [mem_stableSortBy]
    simp [List.mem_filter]

/-- C3 witness: applying the amended theorem to a 281-character text. -/
theorem add_no_length_validation_witness :
    (TweetQueue.add emptyQueue (String.mk (List.replicate 281 'a')) 0 none none).2.text =
      String.mk (List.replicate 281 'a') ∧
    (TweetQueue.add emptyQueue (String.mk (List.replicate 281 'a')) 0 none none).2.status =
      "queued" ∧
    (TweetQueue.add emptyQueue (String.mk (List.replicate 281 'a')) 0 none none).2.id =
      emptyQueue.nextId ∧
    TweetQueue.queue_size
        (TweetQueue.add emptyQueue (String.mk (List.replicate 281 'a')) 0 none none).1 =
      TweetQueue.queue_size emptyQueue + 1 ∧
    (TweetQueue.add emptyQueue (String.mk (List.replicate 281 'a')) 0 none none).2 ∈
      TweetQueue.list_queued
        (TweetQueue.add emptyQueue (String.mk (List.replicate 281 'a')) 0 none none).1 :=
  add_no_length_validation emptyQueue (String.mk (List.replicate 281 'a')) 0 none none
    (by show 280 < (List.replicate 281 'a').length; rw [List.length_replicate]; omega)

/-! ### C8 — trend source fallback -/

/-- A source attempt that did not produce a usable result: it raised, or it
returned the empty list. -/
def sourceFailedOrEmpty (s : SourceOutcome) : Prop :=
  s = Except.error () ∨ s = Except.ok []

theorem get_trends_length_le (sources : List SourceOutcome) :
    (get_trends sources).length ≤ 30 := by
  induction sources with
  | nil => simp [get_trends]
  | cons s rest ih =>
    cases s with
    | error e => simpa [get_trends] using ih
    | ok ts =>
      simp only [get_trends]
      split
      · exact ih
      · simp [List.length_take]

theorem get_trends_all_failed (sources : List SourceOutcome)
    (h : ∀ s ∈ sources, sourceFailedOrEmpty s) : get_trends sources = [] := by
  induction sources with
  | nil => simp [get_trends]
  | cons s rest ih =>
    have hs := h s (by simp)
    have hrest : ∀ s ∈ rest, sourceFailedOrEmpty s := fun x hx => h x (by simp [hx])
    cases s with
    | error e => exact Eq.trans (by simp [get_trends]) (ih hrest)
    | ok ts =>
      rcases hs with hs | hs
      · cases hs
      · have : ts = [] := by injection hs
        subst this
        exact Eq.trans (by simp [get_trends]) (ih hrest)

theorem get_trends_first_success :
    ∀ (pre : List SourceOutcome) (ts : List Trend) (post : List SourceOutcome),
      ts ≠ [] → (∀ s ∈ pre, sourceFailedOrEmpty s) →
      get_trends (pre ++ Except.ok ts :: post) = ts.take 30 := by
  intro pre
  induction pre with
  | nil =>
    intro ts post hne _
    simp [get_trends, List.isEmpty_iff, hne]
  | cons s pre' ih =>
    intro ts post hne hpre
    have hs := hpre s (by simp)
    have hpre' : ∀ x ∈ pre', sourceFailedOrEmpty x := fun x hx => hpre x (by simp [hx])
    cases s with
    | error e => simpa [get_trends] using ih ts post hne hpre'
    | ok l =>
      rcases hs with hs | hs
      · cases hs
      · have : l = [] := by injection hs
        subst this
        simpa [get_trends] using ih ts post hne hpre'

/-- C8: get_trends returns at most 30 trends; if every source raised or
yielded nothing it returns the empty list (raising nothing — the function
is total); and whenever the source list splits into a failed-or-empty
prefix followed by a source yielding a non-empty list, the result is that
source's first 30 trends, whatever the later sources would return — so a
later source is never consulted once one succeeds. -/
theorem trend_scraper_get_trends_spec (sources : List SourceOutcome) :
    (get_trends sources).length ≤ 30 ∧
    ((∀ s ∈ sources, sourceFailedOrEmpty s) → get_trends sources = []) ∧
    (∀ pre ts post, sources = pre ++ Except.ok ts :: post → ts ≠ [] →
      (∀ s ∈ pre, sourceFailedOrEmpty s) → get_trends sources = ts.take 30) := by
  refine ⟨get_trends_length_le sources, get_trends_all_failed sources, ?_⟩
  intro pre ts post hsrc hne hpre
  subst hsrc
  exact get_trends_first_success pre ts post hne hpre

/-- C8 witness: with a raising first source, a successful second source and
a third source in the list, the result is the second source's trends; all
three conjuncts applied concretely. -/
theorem trend_scraper_get_trends_spec_witness :
    (get_trends [Except.error (), Except.ok [Trend.mk "AI" none none],
      Except.ok [Trend.mk "Rust" none none]]).length ≤ 30 ∧
    get_trends [Except.error (), Except.ok []] = [] ∧
    get_trends [Except.error (), Except.ok [Trend.mk "AI" none none],
      Except.ok [Trend.mk "Rust" none none]] = [Trend.mk "AI" none none] :=
  ⟨(trend_scraper_get_trends_spec _).1,
   (trend_scraper_get_trends_spec _).2.1
     (by intro s hs; simp at hs; rcases hs with h | h <;>
           simp [h, sourceFailedOrEmpty]),
   (trend_scraper_get_trends_spec _).2.2 [Except.error ()]
     [Trend.mk "AI" none none] [Except.ok [Trend.mk "Rust" none none]] rfl
     (by simp)
     (by intro s hs; simp at hs; simp [hs, sourceFailedOrEmpty])⟩

/-! ### C2 — at most one PostLogEntry per draft -/

/-- The well-formedness invariant the queue store keeps under disciplined
use: ids are below the AUTOINCREMENT counter and injective, every post_log
row references a stored draft whose status is posted, and no draft is
referenced by more than one post_log row. -/
structure QueueWF (qs : QueueState) : Prop where
  ids_lt : ∀ d ∈ qs.drafts, d.id < qs.nextId
  ids_inj : ∀ d ∈ qs.drafts, ∀ d' ∈ qs.drafts, d.id = d'.id → d = d'
  log_ref : ∀ e ∈ qs.postLog, ∃ d ∈ qs.drafts, some d.id = e.tweet_id ∧ d.status = "posted"
  at_most_one : ∀ id : Int, logCount qs id ≤ 1

theorem queueWF_empty : QueueWF emptyQueue := by
  refine ⟨?_, ?_, ?_, ?_⟩ <;> simp [emptyQueue, logCount]

theorem queueWF_add (qs : QueueState) (text : String) (now : Nat)
    (mp mt : Option String) (h : QueueWF qs) :
    QueueWF (TweetQueue.add qs text now mp mt).1 := by
  refine ⟨?_, ?_, ?_, ?_⟩
  · intro d hd
    simp only [TweetQueue.add, List.mem_append, List.mem_singleton] at hd
    simp only [TweetQueue.add]
    rcases hd with hd | rfl
    · have := h.ids_lt d hd
      omega
    · simp
  · intro d hd d' hd' heq
    simp only [TweetQueue.add, List.mem_append, List.mem_singleton] at hd hd'
    rcases hd with hd | rfl <;> rcases hd' with hd' | rfl
    · exact h.ids_inj d hd d' hd' heq
    · exfalso
      have := h.ids_lt d hd
      simp only at heq
      omega
    · exfalso
      have := h.ids_lt d' hd'
      simp only at heq
      omega
    · rfl
  · intro e he
    simp only [TweetQueue.add] at he ⊢
    rcases h.log_ref e he with ⟨d, hd, hid, hst⟩
    exact ⟨d, List.mem_append_left _ hd, hid, hst⟩
  · intro id
    have := h.at_most_one id
    simpa [logCount, TweetQueue.add] using this

theorem queueWF_remove (qs : QueueState) (tid : Int) (h : QueueWF qs) :
    QueueWF (TweetQueue.remove qs tid).1 := by
  have hid : ∀ d : Draft,
      ((if d.id == tid && d.status == "queued" then { d with status := "removed" } else d) : Draft).id
        = d.id := by
    intro d
    split <;> rfl
  refine ⟨?_, ?_, ?_, ?_⟩
  · intro d hd
    simp only [TweetQueue.remove] at hd ⊢
    rcases List.mem_map.mp hd with ⟨d0, hd0, rfl⟩
    rw [hid d0]
    exact h.ids_lt d0 hd0
  · intro d hd d' hd' heq
    simp only [TweetQueue.remove] at hd hd'
    rcases List.mem_map.mp hd with ⟨d0, hd0, rfl⟩
    rcases List.mem_map.mp hd' with ⟨d0', hd0', rfl⟩
    rw [hid d0, hid d0'] at heq
    rw [h.ids_inj d0 hd0 d0' hd0' heq]
  · intro e he
    simp only [TweetQueue.remove] at he ⊢
    rcases h.log_ref e he with ⟨d, hd, hdid, hst⟩
    refine ⟨d, ?_, hdid, hst⟩
    have hcond : (d.id == tid && d.status == "queued") = false := by
      simp [hst]
    have : ((if d.id == tid && d.status == "queued" then { d with status := "removed" } else d) : Draft) = d := by
      simp [hcond]
    exact this ▸ List.mem_map_of_mem _ hd
  · intro id
    have := h.at_most_one id
    simpa [logCount, TweetQueue.remove] using this

theorem queueWF_markPosted (qs : QueueState) (tid : Int) (trend : String)
    (score : Int) (reasoning tj : String) (now : Nat)
    (h : QueueWF qs) (hq : isQueued qs tid = true) :
    QueueWF (TweetQueue.mark_posted qs (some tid) trend score reasoning tj now) := by
  obtain ⟨dq, hdq, hdqid, hdqst⟩ :
      ∃ d ∈ qs.drafts, d.id = tid ∧ d.status = "queued" := by
    simp only [isQueued, List.any_eq_true, Bool.and_eq_true, beq_iff_eq] at hq
    obtain ⟨d, hd, h1, h2⟩ := hq
    exact ⟨d, hd, h1, h2⟩
  have hnolog : ∀ e ∈ qs.postLog, e.tweet_id ≠ some tid := by
    intro e he heq
    rcases h.log_ref e he with ⟨d, hd, hdid, hst⟩
    rw [heq] at hdid
    have hdtid : d.id = tid := Option.some.inj hdid
    have : d = dq := h.ids_inj d hd dq hdq (by rw [hdtid, hdqid])
    rw [this, hdqst] at hst
    exact absurd hst (by decide)
  have hupd : ∀ d : Draft,
      (if some d.id == some tid then TweetQueue.postedUpdate trend score now d else d).id
        = d.id := by
    intro d
    split <;> rfl
  refine ⟨?_, ?_, ?_, ?_⟩
  · intro d hd
    simp only [TweetQueue.mark_posted] at hd ⊢
    rcases List.mem_map.mp hd with ⟨d0, hd0, rfl⟩
    rw [hupd d0]
    exact h.ids_lt d0 hd0
  · intro d hd d' hd' heq
    simp only [TweetQueue.mark_posted] at hd hd'
    rcases List.mem_map.mp hd with ⟨d0, hd0, rfl⟩
    rcases List.mem_map.mp hd' with ⟨d0', hd0', rfl⟩
    rw [hupd d0, hupd d0'] at heq
    rw [h.ids_inj d0 hd0 d0' hd0' heq]
  · intro e he
    simp only [TweetQueue.mark_posted, List.mem_append, List.mem_singleton] at he
    rcases he with he | rfl
    · rcases h.log_ref e he with ⟨d, hd, hdid, hst⟩
      have hne : d.id ≠ tid := by
        intro hEq
        exact hnolog e he (by rw [← hdid, hEq])
      refine ⟨d, ?_, hdid, hst⟩
      simp only [TweetQueue.mark_posted]
      have hcond : (some d.id == some tid) = false := by
        simp [hne]
      have : (if some d.id == some tid then TweetQueue.postedUpdate trend score now d else d)
          = d := by
        simp [hcond]
      exact this ▸ List.mem_map_of_mem _ hd
    · refine ⟨TweetQueue.postedUpdate trend score now dq, ?_, ?_, rfl⟩
      · simp only [TweetQueue.mark_posted]
        have hcond : (some dq.id == some tid) = true := by
          simp [hdqid]
        have : (if some dq.id == some tid then TweetQueue.postedUpdate trend score now dq else dq)
            = TweetQueue.postedUpdate trend score now dq := by
          simp [hcond]
        exact this ▸ List.mem_map_of_mem _ hdq
      · show some (TweetQueue.postedUpdate trend score now dq).id = some tid
        simp [TweetQueue.postedUpdate, hdqid]
  · intro id
    have hold := h.at_most_one id
    simp only [logCount, TweetQueue.mark_posted, List.filter_append,
      List.length_append] at hold ⊢
    by_cases hcase : tid = id
    · subst hcase
      have hnil : qs.postLog.filter (fun e => e.tweet_id == some tid) = [] := by
        rw [List.filter_eq_nil_iff]
        intro e he
        simp [hnolog e he]
      simp [hnil, List.filter_cons]
    · simpa [List.filter_cons, hcase] using hold

theorem queueWF_execOps :
    ∀ (ops : List QOp) (qs : QueueState) (now : Nat),
      QueueWF qs → disciplined qs now ops = true → QueueWF (execOps qs now ops) := by
  intro ops
  induction ops with
  | nil => intro qs now h _; exact h
  | cons op rest ih =>
    intro qs now h hd
    simp only [disciplined, Bool.and_eq_true] at hd
    obtain ⟨hop, hrest⟩ := hd
    refine ih _ _ ?_ hrest
    cases op with
    | add text mp mt => exact queueWF_add qs text now mp mt h
    | remove id => exact queueWF_remove qs id h
    | markPosted id trend score reasoning tj =>
      exact queueWF_markPosted qs id trend score reasoning tj now h hop

/-- C2 counterexample.  The claim states that every sequence of Queue
operations keeps at most one PostLogEntry per draft.  The sequence
add, mark_posted(1), mark_posted(1) — all public Queue operations —
leaves two post_log rows referencing draft 1: mark_posted checks nothing
and always inserts. -/
theorem double_mark_posted_counterexample :
    1 < logCount (execOps emptyQueue 0
      [QOp.add "hello" none none,
       QOp.markPosted 1 "trend" 50 "reason" "[]",
       QOp.markPosted 1 "trend" 50 "reason" "[]"]) 1 := by decide

/-- C2 (amended): at most one PostLogEntry references any draft in every
state reached from the empty store by a sequence of Queue operations in
which mark_posted is only invoked on an id that is queued at that moment —
the caller discipline the spec demands (Scheduler re-fetches the queued
list before acting).  The Queue itself does not enforce it: a second
mark_posted on the same id appends a second entry. -/
theorem disciplined_ops_at_most_one_postlog (ops : List QOp) (now : Nat)
    (h : disciplined emptyQueue now ops = true) :
    ∀ id : Int, logCount (execOps emptyQueue now ops) id ≤ 1 :=
  (queueWF_execOps ops emptyQueue now queueWF_empty h).at_most_one

/-- C2 witness: a disciplined add-then-mark_posted sequence. -/
theorem disciplined_ops_at_most_one_postlog_witness :
    disciplined emptyQueue 0
      [QOp.add "hello" none none, QOp.markPosted 1 "t" 50 "r" "[]"] = true ∧
    logCount (execOps emptyQueue 0
      [QOp.add "hello" none none, QOp.markPosted 1 "t" 50 "r" "[]"]) 1 ≤ 1 :=
  ⟨by decide, disciplined_ops_at_most_one_postlog _ 0 (by decide) 1⟩

/-! ### C10 — a non-None parse_single result always has should_post true -/

theorem parse_analysis_body_sp (raw : String) (tweets : List TweetRef)
    (a : TweetAnalysis) (h : parse_analysis_body raw tweets = .ok (some a)) :
    a.should_post = true := by
  unfold parse_analysis_body at h
  split at h
  · exact Except.noConfusion h
  · simp only [bind, Except.bind, pure, Except.pure] at h
    split at h
    · exact Except.noConfusion h
    · rename_i spx spv hspv
      split at h
      · exact Except.noConfusion h
      · rename_i bidx bidv hbidv
        split at h
        · exact Option.noConfusion (Except.ok.inj h)
        · rename_i hcond
          split at h
          · exact Except.noConfusion h
          · split at h
            · exact Except.noConfusion h
            · split at h
              · exact Except.noConfusion h
              · split at h
                · exact Except.noConfusion h
                · have ha := Option.some.inj (Except.ok.inj h)
                  have hsp' : pyTruthy spv = true := by
                    cases hv : pyTruthy spv
                    · exact absurd (by simp [hv]) hcond
                    · rfl
                  rw [← ha]
                  exact hsp'

theorem parse_analysis_response_sp (raw : String) (tweets : List TweetRef)
    (a : TweetAnalysis) (h : parse_analysis_response raw tweets = .ok (some a)) :
    a.should_post = true := by
  unfold parse_analysis_response at h
  cases hb : parse_analysis_body raw tweets with
  | error e =>
    rw [hb] at h
    by_cases hc : analysisCaught e = true <;> simp [hc] at h
  | ok r =>
    rw [hb] at h
    have : r = some a := Except.ok.inj h
    exact parse_analysis_body_sp raw tweets a (this ▸ hb)

/-- C10: whenever parse_analysis_response returns a TweetAnalysis (rather
than None or an exception), that result's should_post field is true: the
guard returns None on any falsy should_post before the result is built. -/
theorem parse_analysis_should_post_true (raw : String) (tweets : List TweetRef)
    (a : TweetAnalysis) (h : parse_analysis_response raw tweets = .ok (some a)) :
    a.should_post = true :=
  parse_analysis_response_sp raw tweets a h

/-- C10 witness: the repository's own sample response. -/
theorem parse_analysis_should_post_true_witness :
    parse_analysis_response
      "\x7b\"best_tweet_id\": 1, \"relevance_score\": 82, \"matched_trend\": \"AI\", \"reasoning\": \"ok\", \"should_post\": true\x7d"
      [TweetRef.mk 1 "AI tweet"] =
      .ok (some (TweetAnalysis.mk (some 1) "AI tweet" 82 "AI" "ok" true)) ∧
    (TweetAnalysis.mk (some 1) "AI tweet" 82 "AI" "ok" true).should_post = true :=
  ⟨rfl,
   parse_analysis_should_post_true
     "\x7b\"best_tweet_id\": 1, \"relevance_score\": 82, \"matched_trend\": \"AI\", \"reasoning\": \"ok\", \"should_post\": true\x7d"
     [TweetRef.mk 1 "AI tweet"]
     (TweetAnalysis.mk (some 1) "AI tweet" 82 "AI" "ok" true) rfl⟩

/-! ### C4 — what parse_single catches and what escapes it -/

theorem pyToInt_error (v : JValue) (e : PyErr) (h : pyToInt v = .error e) :
    e = .valueError ∨ e = .typeError := by
  cases v with
  | num n => exact absurd h (by simp [pyToInt])
  | bool b => exact absurd h (by simp [pyToInt])
  | str s =>
    simp only [pyToInt] at h
    split at h
    · exact Or.inl (Except.error.inj h).symm
    · split at h
      · exact Except.noConfusion h
      · exact Or.inl (Except.error.inj h).symm
  | null => exact Or.inr (Except.error.inj h).symm
  | arr l => exact Or.inr (Except.error.inj h).symm
  | obj f => exact Or.inr (Except.error.inj h).symm

/-- C4 counterexample.  The claim states parse_single never raises, for any
input — including non-object JSON.  On the input "[1]" (valid JSON, not an
object) the code evaluates data.get("should_post") on a list and raises
AttributeError, which is not in the except clause. -/
theorem parse_analysis_nonobject_counterexample :
    parse_analysis_response "[1]" [] = .error .attributeError := rfl

/-- C4 (amended): parse_single never raises on malformed JSON (the result
is None), nor on an object whose should_post is missing/falsy or whose
best_tweet_id is missing/null (the result is None); but an exception does
escape exactly when the text parses to JSON that is not an object (an
uncaught AttributeError) or to an object whose relevance_score value is not
int-convertible (an uncaught TypeError/ValueError from int()). -/
theorem parse_analysis_error_behavior :
    (∀ (raw : String) (tweets : List TweetRef),
       jsonLoads (stripFences raw) = .error () →
       parse_analysis_response raw tweets = .ok none) ∧
    (∀ (raw : String) (tweets : List TweetRef) (fields : List (String × JValue)),
       jsonLoads (stripFences raw) = .ok (.obj fields) →
       (pyTruthy ((objGet fields "should_post").getD .null) = false ∨
        ((objGet fields "best_tweet_id").getD .null).isNull = true) →
       parse_analysis_response raw tweets = .ok none) ∧
    (∀ (raw : String) (tweets : List TweetRef) (e : PyErr),
       parse_analysis_response raw tweets = .error e →
       ∃ data, jsonLoads (stripFences raw) = .ok data ∧
         (((∀ fields, data ≠ .obj fields) ∧ e = .attributeError) ∨
          (∃ fields, data = .obj fields ∧
             pyToInt ((objGet fields "relevance_score").getD (.num 0)) = .error e))) := by
  refine ⟨?_, ?_, ?_⟩
  · intro raw tweets h
    simp [parse_analysis_response, parse_analysis_body, h, analysisCaught]
  · intro raw tweets fields hj hfalsy
    simp only [parse_analysis_response, parse_analysis_body, hj, pyGet, bind,
      Except.bind, pure, Except.pure]
    rcases hfalsy with hf | hf <;> simp [hf]
  · intro raw tweets e h
    unfold parse_analysis_response at h
    cases hb : parse_analysis_body raw tweets with
    | ok r => rw [hb] at h; exact Except.noConfusion h
    | error e' =>
      rw [hb] at h
      have h2 : (if analysisCaught e' = true then (Except.ok none : Except PyErr (Option TweetAnalysis)) else Except.error e') = Except.error e := h
      by_cases hc : analysisCaught e' = true
      · rw [if_pos hc] at h2
        exact Except.noConfusion h2
      · rw [if_neg hc] at h2
        have hee : e' = e := Except.error.inj h2
        subst hee
        unfold parse_analysis_body at hb
        split at hb
        · exact absurd (by rw [← Except.error.inj hb]; rfl) hc
        · rename_i data hj
          refine ⟨data, hj, ?_⟩
          simp only [bind, Except.bind, pure, Except.pure] at hb
          cases data with
          | obj fields =>
            refine Or.inr ⟨fields, rfl, ?_⟩
            simp only [pyGet] at hb
            split at hb
            · exact Except.noConfusion hb
            · split at hb
              · rename_i e2 hto
                rw [Except.error.inj hb] at hto
                exact hto
              · exact Except.noConfusion hb
          | null =>
            simp only [pyGet] at hb
            exact Or.inl ⟨fun fields h' => JValue.noConfusion h', (Except.error.inj hb).symm⟩
          | bool b =>
            simp only [pyGet] at hb
            exact Or.inl ⟨fun fields h' => JValue.noConfusion h', (Except.error.inj hb).symm⟩
          | num n =>
            simp only [pyGet] at hb
            exact Or.inl ⟨fun fields h' => JValue.noConfusion h', (Except.error.inj hb).symm⟩
          | str s =>
            simp only [pyGet] at hb
            exact Or.inl ⟨fun fields h' => JValue.noConfusion h', (Except.error.inj hb).symm⟩
          | arr l =>
            simp only [pyGet] at hb
            exact Or.inl ⟨fun fields h' => JValue.noConfusion h', (Except.error.inj hb).symm⟩

/-- C4 witness: malformed JSON yields None (first conjunct) and an object
whose should_post is false yields None (second conjunct), both without an
exception. -/
theorem parse_analysis_error_behavior_witness :
    parse_analysis_response "not json at all" [] = .ok none ∧
    parse_analysis_response "\x7b\"should_post\": false\x7d" [] = .ok none :=
  ⟨parse_analysis_error_behavior.1 "not json at all" [] rfl,
   parse_analysis_error_behavior.2.1 "\x7b\"should_post\": false\x7d" []
     [("should_post", JValue.bool false)] rfl (Or.inl rfl)⟩

/-! ### C9 — parse_ranking semantics -/

theorem pyContains_true (v : JValue) (tweets : List TweetRef)
    (h : pyContains v tweets = .ok true) : ∃ t ∈ tweets, jvEqInt v t.id = true := by
  cases v with
  | arr l => exact Except.noConfusion h
  | obj f => exact Except.noConfusion h
  | null =>
    have := Except.ok.inj h
    simpa [List.any_eq_true] using this
  | bool b =>
    have := Except.ok.inj h
    simpa [List.any_eq_true] using this
  | num n =>
    have := Except.ok.inj h
    simpa [List.any_eq_true] using this
  | str s =>
    have := Except.ok.inj h
    simpa [List.any_eq_true] using this

theorem jvEqInt_some (v : JValue) (n : Int) (h : jvEqInt v n = true) :
    jvToIntId v = some n := by
  cases v with
  | num m =>
    simp only [jvEqInt, beq_iff_eq] at h
    simp [jvToIntId, h]
  | bool b =>
    simp only [jvEqInt, beq_iff_eq] at h
    simp [jvToIntId, h]
  | null => exact Bool.noConfusion h
  | str s => exact Bool.noConfusion h
  | arr l => exact Bool.noConfusion h
  | obj f => exact Bool.noConfusion h

theorem rankingKeep_mem (tweets : List TweetRef) :
    ∀ (rs : List JValue) (kept : List TweetAnalysis),
      rankingKeep rs tweets = .ok kept →
      ∀ a ∈ kept, (∃ t ∈ tweets, a.tweet_id = some t.id) ∧
        a.should_post = decide (0 < a.relevance_score) := by
  intro rs
  induction rs with
  | nil =>
    intro kept h
    have : ([] : List TweetAnalysis) = kept := Except.ok.inj h
    subst this
    intro a ha
    exact absurd ha (List.not_mem_nil a)
  | cons r rest ih =>
    intro kept h
    unfold rankingKeep at h
    simp only [bind, Except.bind, pure, Except.pure] at h
    split at h
    · exact Except.noConfusion h
    · rename_i tidx tid htid
      split at h
      · exact Except.noConfusion h
      · rename_i isInx isIn hIn
        split at h
        · exact ih kept h
        · rename_i hKeep
          split at h
          · exact Except.noConfusion h
          · split at h
            · exact Except.noConfusion h
            · split at h
              · exact Except.noConfusion h
              · split at h
                · exact Except.noConfusion h
                · split at h
                  · exact Except.noConfusion h
                  · rename_i tail htail
                    have hk := Except.ok.inj h
                    subst hk
                    intro a ha
                    rcases List.mem_cons.mp ha with rfl | ha
                    · have hisIn : isIn = true := by
                        cases hv : isIn
                        · rw [hv] at hKeep
                          exact absurd rfl hKeep
                        · rfl
                      rw [hisIn] at hIn
                      obtain ⟨t, ht, hEq⟩ := pyContains_true tid tweets hIn
                      exact ⟨⟨t, ht, jvEqInt_some tid t.id hEq⟩, rfl⟩
                    · exact ih tail htail a ha

/-- C9: on every response parse_ranking returns without an exception, every
returned entry's id belongs to known_drafts (hallucinated ids are dropped),
should_post holds exactly when the entry's relevance_score is positive, the
list is sorted descending by relevance_score, and — whenever the JSON
pipeline produced a kept-entry list — the results are a stable permutation
of it: entries of any fixed score keep their model-provided relative
order. -/
theorem parse_ranking_spec (raw : String) (tweets : List TweetRef)
    (results : List TweetAnalysis)
    (h : parse_ranking_response raw tweets = .ok results) :
    (∀ a ∈ results, ∃ t ∈ tweets, a.tweet_id = some t.id) ∧
    (∀ a ∈ results, a.should_post = decide (0 < a.relevance_score)) ∧
    results.Pairwise (fun x y => y.relevance_score ≤ x.relevance_score) ∧
    (∀ (data rsv : JValue) (rs : List JValue) (kept : List TweetAnalysis),
       jsonLoads (stripFences raw) = .ok data →
       pyGet data "rankings" (.arr []) = .ok rsv →
       jvIter rsv = .ok rs →
       rankingKeep rs tweets = .ok kept →
       ∀ k : Int, results.filter (fun a => a.relevance_score == k) =
         kept.filter (fun a => a.relevance_score == k)) := by
  unfold parse_ranking_response at h
  cases hb : parse_ranking_body raw tweets with
  | error e =>
    rw [hb] at h
    have h2 : (if rankingCaught e = true then (Except.ok [] : Except PyErr (List TweetAnalysis)) else Except.error e) = Except.ok results := h
    by_cases hc : rankingCaught e = true
    · rw [if_pos hc] at h2
      have hres : ([] : List TweetAnalysis) = results := Except.ok.inj h2
      subst hres
      refine ⟨?_, ?_, ?_, ?_⟩
      · intro a ha; exact absurd ha (List.not_mem_nil a)
      · intro a ha; exact absurd ha (List.not_mem_nil a)
      · exact List.Pairwise.nil
      · intro data rsv rs kept hd hg hi hk k
        exfalso
        have : parse_ranking_body raw tweets =
            .ok (stableSortBy (fun a => -a.relevance_score) kept) := by
          simp [parse_ranking_body, hd, hg, hi, hk, bind, Except.bind, pure, Except.pure]
        rw [hb] at this
        exact Except.noConfusion this
    · rw [if_neg hc] at h2
      exact Except.noConfusion h2
  | ok lst =>
    rw [hb] at h
    have hres : lst = results := Except.ok.inj h
    subst hres
    unfold parse_ranking_body at hb
    split at hb
    · exact Except.noConfusion hb
    · rename_i data0 hdata0
      simp only [bind, Except.bind, pure, Except.pure] at hb
      split at hb
      · exact Except.noConfusion hb
      · rename_i rsvx rsv0 hrsv0
        split at hb
        · exact Except.noConfusion hb
        · rename_i rsx rs0 hrs0
          split at hb
          · exact Except.noConfusion hb
          · rename_i keptx kept0 hkept0
            have hsort := Except.ok.inj hb
            subst hsort
            refine ⟨?_, ?_, ?_, ?_⟩
            · intro a ha
              rw [mem_stableSortBy] at ha
              exact (rankingKeep_mem tweets rs0 kept0 hkept0 a ha).1
            · intro a ha
              rw [mem_stableSortBy] at ha
              exact (rankingKeep_mem tweets rs0 kept0 hkept0 a ha).2
            · have hp := pairwise_stableSortBy (fun a : TweetAnalysis => -a.relevance_score) kept0
              exact hp.imp (fun hab => by omega)
            · intro data rsv rs kept hd hg hi hk k
              have hde : data = data0 := (Except.ok.inj (hdata0 ▸ hd)).symm
              subst hde
              have hrsve : rsv = rsv0 := (Except.ok.inj (hrsv0 ▸ hg)).symm
              subst hrsve
              have hrse : rs = rs0 := (Except.ok.inj (hrs0 ▸ hi)).symm
              subst hrse
              have hkepte : kept = kept0 := (Except.ok.inj (hkept0 ▸ hk)).symm
              subst hkepte
              have hpred : (fun a : TweetAnalysis => (-a.relevance_score) == (-k)) =
                  (fun a : TweetAnalysis => a.relevance_score == k) := by
                funext a
                by_cases hek : a.relevance_score = k
                · simp [hek]
                · have hnk : ¬(-a.relevance_score = -k) := fun hh => hek (by omega)
                  simp [hek, hnk]
              have := filter_stableSortBy (fun a : TweetAnalysis => -a.relevance_score)
                (-k) kept
              rw [hpred] at this
              exact this

/-- C9 witness: a concrete ranking response with a hallucinated id (9) and
a score tie between ids 1 and 2: the tie keeps model order, and every kept
entry is a known draft. -/
theorem parse_ranking_spec_witness :
    ([TweetAnalysis.mk (some 1) "one" 5 "" "" true,
      TweetAnalysis.mk (some 2) "two" 5 "" "" true].Pairwise
        (fun x y => y.relevance_score ≤ x.relevance_score)) ∧
    ([TweetAnalysis.mk (some 1) "one" 5 "" "" true,
      TweetAnalysis.mk (some 2) "two" 5 "" "" true].filter
        (fun a => a.relevance_score == 5)) =
      ([TweetAnalysis.mk (some 1) "one" 5 "" "" true,
        TweetAnalysis.mk (some 2) "two" 5 "" "" true].filter
        (fun a => a.relevance_score == 5)) :=
  ⟨(parse_ranking_spec
      "\x7b\"rankings\": [\x7b\"id\": 1, \"relevance_score\": 5\x7d, \x7b\"id\": 9, \"relevance_score\": 7\x7d, \x7b\"id\": 2, \"relevance_score\": 5\x7d]\x7d"
      [TweetRef.mk 1 "one", TweetRef.mk 2 "two"]
      [TweetAnalysis.mk (some 1) "one" 5 "" "" true,
       TweetAnalysis.mk (some 2) "two" 5 "" "" true] rfl).2.2.1,
   (parse_ranking_spec
      "\x7b\"rankings\": [\x7b\"id\": 1, \"relevance_score\": 5\x7d, \x7b\"id\": 9, \"relevance_score\": 7\x7d, \x7b\"id\": 2, \"relevance_score\": 5\x7d]\x7d"
      [TweetRef.mk 1 "one", TweetRef.mk 2 "two"]
      [TweetAnalysis.mk (some 1) "one" 5 "" "" true,
       TweetAnalysis.mk (some 2) "two" 5 "" "" true] rfl).2.2.2
     (JValue.obj [("rankings", JValue.arr
        [JValue.obj [("id", JValue.num 1), ("relevance_score", JValue.num 5)],
         JValue.obj [("id", JValue.num 9), ("relevance_score", JValue.num 7)],
         JValue.obj [("id", JValue.num 2), ("relevance_score", JValue.num 5)]])])
     (JValue.arr
        [JValue.obj [("id", JValue.num 1), ("relevance_score", JValue.num 5)],
         JValue.obj [("id", JValue.num 9), ("relevance_score", JValue.num 7)],
         JValue.obj [("id", JValue.num 2), ("relevance_score", JValue.num 5)]])
     [JValue.obj [("id", JValue.num 1), ("relevance_score", JValue.num 5)],
      JValue.obj [("id", JValue.num 9), ("relevance_score", JValue.num 7)],
      JValue.obj [("id", JValue.num 2), ("relevance_score", JValue.num 5)]]
     [TweetAnalysis.mk (some 1) "one" 5 "" "" true,
      TweetAnalysis.mk (some 2) "two" 5 "" "" true]
     rfl rfl rfl rfl 5⟩

/-! ### C5, C6, C7 — run_cycle frame and gating properties -/

theorem analyze_tweets_some_sp (lr : Except Unit String) (tws : List TweetRef)
    (a : TweetAnalysis) (h : analyze_tweets lr tws = some a) :
    a.should_post = true := by
  unfold analyze_tweets at h
  split at h
  · exact Option.noConfusion h
  · split at h
    · exact Option.noConfusion h
    · rename_i resp
      split at h
      · exact Option.noConfusion h
      · rename_i r hparse
        rw [h] at hparse
        exact parse_analysis_response_sp resp tws a hparse

/-- C6: a dry run never touches the store and never calls the poster —
whatever the environment (posting hour, trends, model response, poster
behaviour) and whatever the queue contains, run_cycle with dry_run leaves
the queue state identical and posterCalled false. -/
theorem run_cycle_dry_run_frame (env : CycleEnv) (qs : QueueState) (now : Nat) :
    (run_cycle env qs true now).queue = qs ∧
    (run_cycle env qs true now).posterCalled = false := by
  simp only [run_cycle]
  repeat' split
  all_goals first
  | exact ⟨rfl, rfl⟩
  | (rename_i hx; exact Bool.noConfusion hx)
  | exact absurd trivial ‹¬True›

/-- C5: when Poster.post raises, a non-dry run never mutates the queue, and
whenever the poster was actually invoked the cycle returns None — the
analyzed draft stays queued and no PostLogEntry is appended. -/
theorem run_cycle_poster_failure_no_mutation (env : CycleEnv) (qs : QueueState)
    (now : Nat) (hfail : ∀ t m, env.postResult t m = .error ()) :
    (run_cycle env qs false now).queue = qs ∧
    ((run_cycle env qs false now).posterCalled = true →
      (run_cycle env qs false now).analysis = none) := by
  cases hr : run_cycle env qs false now with
  | mk ra rq rp =>
    simp only [run_cycle] at hr
    repeat' split at hr
    all_goals first
    | (rename_i heq; rw [hfail] at heq; exact Except.noConfusion heq)
    | (rename_i hx; exact Bool.noConfusion hx)
    | (injection hr with h1 h2 h3; subst h1; subst h2; subst h3;
       exact ⟨rfl, fun hp => Bool.noConfusion hp⟩)
    | (injection hr with h1 h2 h3; subst h1; subst h2; subst h3;
       exact ⟨rfl, fun _ => rfl⟩)

/-- C5 witness: a full posting path — posting hour, one queued draft, one
trend, a high-score model response — with a poster that raises: the queue
is unchanged and the cycle returns None although the poster was called. -/
theorem run_cycle_poster_failure_no_mutation_witness :
    (run_cycle
      (CycleEnv.mk true [Trend.mk "AI" none none]
        (Except.ok "\x7b\"best_tweet_id\": 1, \"relevance_score\": 80, \"should_post\": true\x7d")
        (fun _ _ => Except.error ()) 40)
      (QueueState.mk [Draft.mk 1 "AI tweet" 0 none none none "queued" none none] 2 [])
      false 0).queue =
      QueueState.mk [Draft.mk 1 "AI tweet" 0 none none none "queued" none none] 2 [] ∧
    ((run_cycle
      (CycleEnv.mk true [Trend.mk "AI" none none]
        (Except.ok "\x7b\"best_tweet_id\": 1, \"relevance_score\": 80, \"should_post\": true\x7d")
        (fun _ _ => Except.error ()) 40)
      (QueueState.mk [Draft.mk 1 "AI tweet" 0 none none none "queued" none none] 2 [])
      false 0).posterCalled = true →
     (run_cycle
      (CycleEnv.mk true [Trend.mk "AI" none none]
        (Except.ok "\x7b\"best_tweet_id\": 1, \"relevance_score\": 80, \"should_post\": true\x7d")
        (fun _ _ => Except.error ()) 40)
      (QueueState.mk [Draft.mk 1 "AI tweet" 0 none none none "queued" none none] 2 [])
      false 0).analysis = none) :=
  run_cycle_poster_failure_no_mutation
    (CycleEnv.mk true [Trend.mk "AI" none none]
      (Except.ok "\x7b\"best_tweet_id\": 1, \"relevance_score\": 80, \"should_post\": true\x7d")
      (fun _ _ => Except.error ()) 40)
    (QueueState.mk [Draft.mk 1 "AI tweet" 0 none none none "queued" none none] 2 [])
    0 (fun _ _ => rfl)

/-- C7: when the gates up to analysis pass and the parsed analysis scores
below min_relevance_score, run_cycle returns that analysis (not None), the
queue state is untouched and the poster is never called. -/
theorem run_cycle_score_gate (env : CycleEnv) (qs : QueueState) (dry_run : Bool)
    (now : Nat) (a : TweetAnalysis)
    (hgate : dry_run = true ∨ env.isPostingHour = true)
    (hq : (TweetQueue.list_queued qs).isEmpty = false)
    (ht : env.trends.isEmpty = false)
    (ha : analyze_tweets env.llmResponse
        ((TweetQueue.list_queued qs).map (fun t => TweetRef.mk t.id t.text)) = some a)
    (hscore : a.relevance_score < env.minRelevanceScore) :
    run_cycle env qs dry_run now = ⟨some a, qs, false⟩ := by
  have hsp : a.should_post = true := analyze_tweets_some_sp _ _ _ ha
  have hcond : (!dry_run && !env.isPostingHour) = false := by
    rcases hgate with h | h <;> simp [h]
  simp [run_cycle, hcond, hq, ht, ha, hsp, hscore]

/-- C7 witness: posting hour, one queued draft, one trend, and a model
response scoring 5 against a threshold of 40: the cycle returns the
analysis, the queue is unchanged, and the poster was not called. -/
theorem run_cycle_score_gate_witness :
    run_cycle
      (CycleEnv.mk true [Trend.mk "AI" none none]
        (Except.ok "\x7b\"best_tweet_id\": 1, \"relevance_score\": 5, \"should_post\": true\x7d")
        (fun _ _ => Except.ok (PostResult.mk "1" "t" "u")) 40)
      (QueueState.mk [Draft.mk 1 "AI tweet" 0 none none none "queued" none none] 2 [])
      false 0 =
    ⟨some (TweetAnalysis.mk (some 1) "AI tweet" 5 "" "" true),
     QueueState.mk [Draft.mk 1 "AI tweet" 0 none none none "queued" none none] 2 [],
     false⟩ :=
  run_cycle_score_gate
    (CycleEnv.mk true [Trend.mk "AI" none none]
      (Except.ok "\x7b\"best_tweet_id\": 1, \"relevance_score\": 5, \"should_post\": true\x7d")
      (fun _ _ => Except.ok (PostResult.mk "1" "t" "u")) 40)
    (QueueState.mk [Draft.mk 1 "AI tweet" 0 none none none "queued" none none] 2 [])
    false 0 (TweetAnalysis.mk (some 1) "AI tweet" 5 "" "" true)
    (Or.inr rfl) rfl rfl rfl (by decide)

end TrendPoster
